import Mathlib

/-!
Verification development for the solitary-forge configuration/rendering
pipeline.  The Python source (pydantic models, plugin manager, context
builder, validation system, template renderer, output manager, generators)
is shallowly embedded as executable Lean definitions; theorems settle the
specification claims against those definitions.

Modelling conventions:
* Python dicts are association lists with insertion-order update-in-place
  semantics (`upsert`), matching CPython dict behaviour for the
  operations the code performs.
* Python `str.strip()` is `pyStrip` (drop whitespace at both ends).
* Fallible code returns `Except`; Python exception classes are modelled by
  explicit error inductives.  The single quotes that surround interpolated
  names in some Python messages are dropped from the modelled messages.
* Filesystem and git effects are modelled by explicit state / oracle
  parameters.
-/

namespace SolitaryForge

/-- Whitespace as recognised by Python str.strip() for the ASCII range
(space, tab, newline, carriage return, vertical tab, form feed). -/
def pyIsSpace (c : Char) : Bool :=
  c == ' ' || c == '\t' || c == '\n' || c == '\r' || c == '\x0b' || c == '\x0c'

/-- Python str.strip() on a list of characters: drop whitespace from both
ends. -/
def pyStripList (l : List Char) : List Char :=
  ((l.dropWhile pyIsSpace).reverse.dropWhile pyIsSpace).reverse

/-- Python str.strip() on strings. -/
def pyStrip (s : String) : String :=
  ⟨pyStripList s.data⟩

/-- Untyped YAML-ish values appearing in configuration dictionaries
(the fragment the code manipulates: strings, nested mappings, lists). -/
inductive Val where
  | str (s : String)
  | dict (d : List (String × Val))
  | list (xs : List Val)

/-- Python dict lookup on an association list. -/
def alookup {α : Type} (k : String) : List (String × α) → Option α
  | [] => none
  | (k0, v) :: rest => if k0 = k then some v else alookup k rest

/-- Python dict assignment d[k] = v: update in place if the key exists
(keeping its position), otherwise append. -/
def upsert {α : Type} : List (String × α) → String → α → List (String × α)
  | [], k, v => [(k, v)]
  | (k0, v0) :: rest, k, v =>
    if k0 = k then (k0, v) :: rest else (k0, v0) :: upsert rest k v

/-- Short-circuiting elementwise parse, as pydantic field parsing of a list:
first failure aborts. -/
def mapExcept {α β E : Type} (f : α → Except E β) : List α → Except E (List β)
  | [] => .ok []
  | a :: as =>
    match f a with
    | .error e => .error e
    | .ok b =>
      match mapExcept f as with
      | .error e => .error e
      | .ok bs => .ok (b :: bs)

/-! ## Configuration model (models.py) -/

/-- PluginConfig after successful pydantic validation (models.py): name and
git are trimmed and non-empty. -/
structure PluginConfig where
  name : String
  git : String
  version : String
  config : List (String × Val)

/-- RenderConfig after successful pydantic validation (models.py): template
and output are trimmed and non-empty. -/
structure RenderConfig where
  template : String
  output : String

/-- ForgeConfig (models.py): variables, plugins, render.  The Python class
has exactly these three fields; in particular there is no environments
field. -/
structure ForgeConfig where
  variables' : List (String × Val)
  plugins : List PluginConfig
  render : List RenderConfig

/-- Raw (pre-validation) plugin entry of the configuration file.  Required
fields are Options: none models an absent key. -/
structure RawPluginConfig where
  name : Option String
  git : Option String
  version : Option String
  config : Option (List (String × Val))

/-- Raw (pre-validation) render entry of the configuration file. -/
structure RawRenderConfig where
  template : Option String
  output : Option String

/-- Raw (pre-validation) top-level configuration: any of the three keys may
be absent, in which case pydantic substitutes the default factory value
without running the field validators (pydantic v2 validate_default=False,
confirmed by test_forge_config_defaults). -/
structure RawForgeConfig where
  variables' : Option (List (String × Val))
  plugins : Option (List RawPluginConfig)
  render : Option (List RawRenderConfig)

/-- Field validation of a single plugin entry (PluginConfig validators in
models.py): name and git required, trimmed, non-empty; version defaults to
main; config defaults to empty. -/
def parsePluginConfig (r : RawPluginConfig) : Except String PluginConfig :=
  match r.name with
  | none => .error "Field required: name"
  | some n =>
    match r.git with
    | none => .error "Field required: git"
    | some g =>
      let n := pyStrip n
      if n = "" then .error "Plugin name cannot be empty"
      else
        let g := pyStrip g
        if g = "" then .error "Git URL cannot be empty"
        else .ok ⟨n, g, r.version.getD "main", r.config.getD []⟩

/-- Field validation of a single render entry (RenderConfig validators in
models.py): template and output required, trimmed, non-empty. -/
def parseRenderConfig (r : RawRenderConfig) : Except String RenderConfig :=
  match r.template with
  | none => .error "Field required: template"
  | some t =>
    match r.output with
    | none => .error "Field required: output"
    | some o =>
      let t := pyStrip t
      if t = "" then .error "Template and output paths cannot be empty"
      else
        let o := pyStrip o
        if o = "" then .error "Template and output paths cannot be empty"
        else .ok ⟨t, o⟩

/-- ForgeConfig.validate_plugins (models.py): reject an empty list and
duplicate names.  The Python code compares len(names) with len(set(names)),
which is exactly the complement of Nodup. -/
def validatePluginsField (ps : List PluginConfig) :
    Except String (List PluginConfig) :=
  if ps.isEmpty then .error "At least one plugin must be specified"
  else if (ps.map PluginConfig.name).Nodup then .ok ps
  else .error "Plugin names must be unique"

/-- ForgeConfig.validate_render (models.py): reject an empty list. -/
def validateRenderField (rs : List RenderConfig) :
    Except String (List RenderConfig) :=
  if rs.isEmpty then .error "At least one render configuration must be specified"
  else .ok rs

/-- Explicit bind on Except, used to sequence the field validations. -/
def exBind {E A B : Type} (x : Except E A) (f : A → Except E B) : Except E B :=
  match x with
  | .error e => .error e
  | .ok a => f a

/-- Validation of the plugins field: absent means the default empty list with
no validator run (pydantic v2 does not validate defaults); a provided list
goes through per-item validation then ForgeConfig.validate_plugins. -/
def parsePluginsField (r : RawForgeConfig) : Except String (List PluginConfig) :=
  match r.plugins with
  | none => .ok []
  | some rps => exBind (mapExcept parsePluginConfig rps) validatePluginsField

/-- Validation of the render field: absent means the default empty list with
no validator run; a provided list goes through per-item validation then
ForgeConfig.validate_render. -/
def parseRenderField (r : RawForgeConfig) : Except String (List RenderConfig) :=
  match r.render with
  | none => .ok []
  | some rrs => exBind (mapExcept parseRenderConfig rrs) validateRenderField

/-- ForgeConfig.model_validate on raw configuration data (models.py):
each provided field is validated by its field validators; an absent field
takes the default factory value with no validation (pydantic v2 does not
run validators on defaults). -/
def parseForgeConfig (r : RawForgeConfig) : Except String ForgeConfig :=
  exBind (parsePluginsField r) fun ps =>
    exBind (parseRenderField r) fun rs =>
      .ok ⟨r.variables'.getD [], ps, rs⟩

/-! ## C1 lemmas -/

theorem parsePluginConfig_ok_name {r : RawPluginConfig} {p : PluginConfig}
    (h : parsePluginConfig r = .ok p) :
    p.name = pyStrip (r.name.getD "") := by
  cases hn : r.name with
  | none => simp [parsePluginConfig, hn] at h
  | some n =>
    cases hg : r.git with
    | none => simp [parsePluginConfig, hn, hg] at h
    | some g =>
      simp only [parsePluginConfig, hn, hg] at h
      split at h
      · exact absurd h (by simp)
      · split at h
        · exact absurd h (by simp)
        · simp only [Except.ok.injEq] at h
          simp [← h, hn]

theorem mapExcept_ok_names {rps : List RawPluginConfig} {ps : List PluginConfig}
    (h : mapExcept parsePluginConfig rps = .ok ps) :
    ps.map PluginConfig.name = rps.map (fun r => pyStrip (r.name.getD "")) := by
  induction rps generalizing ps with
  | nil =>
    simp only [mapExcept, Except.ok.injEq] at h
    simp [← h]
  | cons a as ih =>
    unfold mapExcept at h
    cases hfa : parsePluginConfig a with
    | error e => rw [hfa] at h; exact absurd h (by simp)
    | ok b =>
      rw [hfa] at h
      cases hrest : mapExcept parsePluginConfig as with
      | error e => rw [hrest] at h; exact absurd h (by simp)
      | ok bs =>
        rw [hrest] at h
        simp only [Except.ok.injEq] at h
        subst h
        simp [parsePluginConfig_ok_name hfa, ih hrest]

theorem validatePluginsField_ok {ps ps' : List PluginConfig}
    (h : validatePluginsField ps = .ok ps') :
    ps' = ps ∧ ps ≠ [] ∧ (ps.map PluginConfig.name).Nodup := by
  by_cases he : ps.isEmpty
  · simp [validatePluginsField, he] at h
  · by_cases hd : (ps.map PluginConfig.name).Nodup
    · simp [validatePluginsField, he, hd] at h
      exact ⟨h.symm, fun hc => he (by simp [hc]), hd⟩
    · simp [validatePluginsField, he, hd] at h

theorem validateRenderField_ok {rs rs' : List RenderConfig}
    (h : validateRenderField rs = .ok rs') :
    rs' = rs ∧ rs ≠ [] := by
  by_cases he : rs.isEmpty
  · simp [validateRenderField, he] at h
  · simp [validateRenderField, he] at h
    exact ⟨h.symm, fun hc => he (by simp [hc])⟩

/-! ## C1 -/

/-- C1 counterexample: the claim says parsing fails when the plugins list or
the render list is empty, and that every successfully parsed configuration
has non-empty plugins and render lists.  But pydantic v2 does not run field
validators on default values (test_forge_config_defaults exercises this), so
a configuration providing none of the three keys parses successfully with
empty plugins and empty render. -/
theorem C1_counterexample :
    parseForgeConfig ⟨none, none, none⟩ = .ok ⟨[], [], []⟩
    ∧ (ForgeConfig.mk [] [] []).plugins = []
    ∧ (ForgeConfig.mk [] [] []).render = [] :=
  ⟨rfl, rfl, rfl⟩

/-- C1 (amended): parsing fails whenever an explicitly provided plugins list
is empty, whenever an explicitly provided plugins list has duplicate
trimmed names, and whenever an explicitly provided render list is empty;
every successful parse yields pairwise-distinct plugin names, and its
plugins (resp. render) list is non-empty provided the corresponding key
was present in the input.  (When a key is absent, pydantic substitutes the
default empty list without validation.) -/
theorem C1_parse_validation :
    (∀ r : RawForgeConfig, r.plugins = some [] →
      ∃ msg, parseForgeConfig r = .error msg)
    ∧ (∀ (r : RawForgeConfig) (rps : List RawPluginConfig),
        r.plugins = some rps →
        ¬ (rps.map (fun p => pyStrip (p.name.getD ""))).Nodup →
        ∃ msg, parseForgeConfig r = .error msg)
    ∧ (∀ r : RawForgeConfig, r.render = some [] →
      ∃ msg, parseForgeConfig r = .error msg)
    ∧ (∀ (r : RawForgeConfig) (cfg : ForgeConfig),
        parseForgeConfig r = .ok cfg →
        (cfg.plugins.map PluginConfig.name).Nodup
        ∧ (r.plugins ≠ none → cfg.plugins ≠ [])
        ∧ (r.render ≠ none → cfg.render ≠ [])) := by
  refine ⟨?_, ?_, ?_, ?_⟩
  · intro r hp
    simp [parseForgeConfig, parsePluginsField, hp, mapExcept, exBind,
      validatePluginsField]
  · intro r rps hp hdup
    simp only [parseForgeConfig, parsePluginsField, hp]
    cases hm : mapExcept parsePluginConfig rps with
    | error e => exact ⟨e, rfl⟩
    | ok ps =>
      have hnames := mapExcept_ok_names hm
      have hval : validatePluginsField ps = .error "Plugin names must be unique" := by
        have hne : ps.isEmpty = false := by
          rcases ps with _ | ⟨p, ps'⟩
          · exact absurd (by rw [← hnames]; simp) hdup
          · rfl
        have hnd : ¬ (ps.map PluginConfig.name).Nodup := by
          rw [hnames]; exact hdup
        simp [validatePluginsField, hne, hnd]
      simp [exBind, hval]
  · intro r hr
    simp only [parseForgeConfig, parseRenderField, hr]
    cases hp : parsePluginsField r with
    | error e => exact ⟨e, rfl⟩
    | ok ps =>
      simp [exBind, mapExcept, validateRenderField]
  · intro r cfg h
    simp only [parseForgeConfig] at h
    cases hp : parsePluginsField r with
    | error e => rw [hp] at h; exact absurd h (by simp [exBind])
    | ok ps =>
      rw [hp] at h
      cases hr : parseRenderField r with
      | error e => rw [hr] at h; exact absurd h (by simp [exBind])
      | ok rs =>
        rw [hr] at h
        simp only [exBind, Except.ok.injEq] at h
        subst h
        have hplug : (ps.map PluginConfig.name).Nodup ∧
            (r.plugins ≠ none → ps ≠ []) := by
          cases hps : r.plugins with
          | none =>
            simp only [parsePluginsField, hps, Except.ok.injEq] at hp
            subst hp
            simp
          | some rps =>
            simp only [parsePluginsField, hps] at hp
            cases hm : mapExcept parsePluginConfig rps with
            | error e => rw [hm] at hp; exact absurd hp (by simp [exBind])
            | ok ps0 =>
              rw [hm] at hp
              simp only [exBind] at hp
              obtain ⟨rfl, hne, hnd⟩ := validatePluginsField_ok hp
              exact ⟨hnd, fun _ => hne⟩
        have hrend : r.render ≠ none → rs ≠ [] := by
          cases hrs : r.render with
          | none => intro hc; exact absurd rfl hc
          | some rrs =>
            simp only [parseRenderField, hrs] at hr
            cases hm : mapExcept parseRenderConfig rrs with
            | error e => rw [hm] at hr; exact absurd hr (by simp [exBind])
            | ok rs0 =>
              rw [hm] at hr
              simp only [exBind] at hr
              obtain ⟨rfl, hne⟩ := validateRenderField_ok hr
              exact fun _ => hne
        exact ⟨hplug.1, hplug.2, hrend⟩

/-- C1 witness: the amended theorem applied at concrete inputs — an
explicitly empty plugins list, a duplicate plugin name, an explicitly empty
render list, and a successful parse. -/
theorem C1_parse_validation_witness :
    (∃ msg, parseForgeConfig ⟨none, some [], none⟩ = .error msg)
    ∧ (∃ msg, parseForgeConfig
        ⟨none, some [⟨some "core", some "u1", none, none⟩,
                     ⟨some " core ", some "u2", none, none⟩], none⟩ = .error msg)
    ∧ (∃ msg, parseForgeConfig ⟨none, none, some []⟩ = .error msg)
    ∧ ((ForgeConfig.mk [] [⟨"core", "u1", "main", []⟩]
          [⟨"a.j2", "a"⟩]).plugins.map PluginConfig.name).Nodup := by
  refine ⟨?_, ?_, ?_, ?_⟩
  · exact C1_parse_validation.1 ⟨none, some [], none⟩ rfl
  · exact C1_parse_validation.2.1 _ _ rfl (by decide)
  · exact C1_parse_validation.2.2.1 ⟨none, none, some []⟩ rfl
  · exact (C1_parse_validation.2.2.2
      ⟨none, some [⟨some "core", some "u1", none, none⟩],
        some [⟨some "a.j2", some "a"⟩]⟩ _ rfl).1

/-! ## Plugin model (plugin.py) -/

/-- Python str.endswith on code points (used for the star-dot-j2 rglob
pattern, which matches exactly the file names ending in .j2). -/
def pyEndsWith (s suffix : String) : Bool :=
  suffix.data.isSuffixOf s.data

/-- Directory tree under a plugin template root: a file or a directory with
children.  Models the on-disk layout that Plugin.list_templates walks with
rglob. -/
inductive FSEntry where
  | file (name : String)
  | dir (name : String) (children : List FSEntry)

mutual

/-- Relative paths (prefix ++ name, components joined with /) of the entries
whose name matches the rglob pattern star-dot-j2, collected from one entry.
pathlib's rglob yields matching entries of any kind, directories included,
and list_templates appends them without an is_file check, so a directory
whose own name carries the suffix contributes its path too. -/
def collectEntry : FSEntry → String → List String
  | .file n, pre => if pyEndsWith n ".j2" then [pre ++ n] else []
  | .dir n cs, pre =>
    (if pyEndsWith n ".j2" then [pre ++ n] else [])
      ++ collectList cs (pre ++ n ++ "/")

/-- Matching relative paths collected from a list of sibling entries. -/
def collectList : List FSEntry → String → List String
  | [], _ => []
  | e :: es, pre => collectEntry e pre ++ collectList es pre

end

/-- Specification predicate, independent of the collection function: s is
the slash-joined relative path of an entry — file or directory — whose name
carries the .j2 suffix, somewhere inside the entry (this is what rglob
star-dot-j2 discovers). -/
inductive IsTemplatePath : FSEntry → String → Prop where
  | file {n : String} : pyEndsWith n ".j2" = true → IsTemplatePath (.file n) n
  | dirSelf {n : String} {cs : List FSEntry} :
      pyEndsWith n ".j2" = true → IsTemplatePath (.dir n cs) n
  | dir {n : String} {cs : List FSEntry} {e : FSEntry} {p : String} :
      e ∈ cs → IsTemplatePath e p → IsTemplatePath (.dir n cs) (n ++ "/" ++ p)

/-- The claim's narrower reading: s is the relative path of a FILE with the
.j2 suffix (directories only descended, never collected).  Used to refute
the claim as stated: list_templates also returns matching directory
paths. -/
inductive IsTemplateFilePath : FSEntry → String → Prop where
  | file {n : String} : pyEndsWith n ".j2" = true → IsTemplateFilePath (.file n) n
  | dir {n : String} {cs : List FSEntry} {e : FSEntry} {p : String} :
      e ∈ cs → IsTemplateFilePath e p →
      IsTemplateFilePath (.dir n cs) (n ++ "/" ++ p)

/-- PluginManifest (models.py): name and version required, description and
dependencies defaulted. -/
structure PluginManifest where
  name : String
  version : String
  description : String
  dependencies : List String

/-- Loaded plugin (plugin.py).  templatesDir models the templates
subdirectory: none when it does not exist (or is not a directory), some
with its entries otherwise, so Plugin.has_templates is templatesDir.isSome. -/
structure Plugin where
  name : String
  path : String
  config : List (String × Val)
  manifest : Option PluginManifest
  templatesDir : Option (List FSEntry)

/-- Plugin.has_templates: the templates directory exists and is a
directory. -/
def Plugin.hasTemplates (p : Plugin) : Bool :=
  p.templatesDir.isSome

/-- Plugin.list_templates: empty when has_templates is false, otherwise the
sorted list of relative paths of the recursively discovered .j2 files. -/
def Plugin.listTemplates (p : Plugin) : List String :=
  match p.templatesDir with
  | none => []
  | some es => List.insertionSort (· ≤ ·) (collectList es "")

mutual

theorem mem_collectEntry (e : FSEntry) (pre s : String) :
    s ∈ collectEntry e pre ↔ ∃ q, IsTemplatePath e q ∧ s = pre ++ q := by
  cases e with
  | file n =>
    by_cases hj : pyEndsWith n ".j2"
    · simp only [collectEntry, hj, if_true, List.mem_singleton]
      constructor
      · intro h
        exact ⟨n, IsTemplatePath.file hj, h⟩
      · rintro ⟨q, ht, rfl⟩
        cases ht
        rfl
    · simp only [collectEntry, hj, Bool.false_eq_true, if_false,
        List.not_mem_nil, false_iff]
      rintro ⟨q, ht, rfl⟩
      cases ht
      simp_all
  | dir n cs =>
    by_cases hj : pyEndsWith n ".j2"
    · simp only [collectEntry, hj, if_true, List.mem_append, List.mem_singleton]
      rw [mem_collectList cs (pre ++ n ++ "/") s]
      constructor
      · rintro (rfl | ⟨e, he, q, ht, rfl⟩)
        · exact ⟨n, IsTemplatePath.dirSelf hj, rfl⟩
        · exact ⟨n ++ "/" ++ q, IsTemplatePath.dir he ht,
            by simp [String.append_assoc]⟩
      · rintro ⟨q, ht, rfl⟩
        cases ht with
        | dirSelf _ => exact Or.inl rfl
        | dir he ht =>
          exact Or.inr ⟨_, he, _, ht, by simp [String.append_assoc]⟩
    · simp only [collectEntry, hj, Bool.false_eq_true, if_false,
        List.nil_append]
      rw [mem_collectList cs (pre ++ n ++ "/") s]
      constructor
      · rintro ⟨e, he, q, ht, rfl⟩
        exact ⟨n ++ "/" ++ q, IsTemplatePath.dir he ht,
          by simp [String.append_assoc]⟩
      · rintro ⟨q, ht, rfl⟩
        cases ht with
        | dirSelf hj' => exact absurd hj' hj
        | dir he ht =>
          exact ⟨_, he, _, ht, by simp [String.append_assoc]⟩

theorem mem_collectList (es : List FSEntry) (pre s : String) :
    s ∈ collectList es pre ↔ ∃ e ∈ es, ∃ q, IsTemplatePath e q ∧ s = pre ++ q := by
  cases es with
  | nil => simp [collectList]
  | cons e es =>
    simp only [collectList, List.mem_append]
    rw [mem_collectEntry e pre s, mem_collectList es pre s]
    simp [List.mem_cons, or_and_right, exists_or]

end

/-! ## C8 -/

/-- C8 counterexample: the claim says list_templates returns relative paths
of discovered FILES with the template suffix, but rglob star-dot-j2 also
yields a directory whose own name carries the suffix and list_templates
appends its path without an is_file check: on a templates root holding only
an empty directory named d.j2, the result contains d.j2, although no entry
of the tree is a file with the suffix (IsTemplateFilePath never holds
there). -/
theorem not_isTemplateFilePath_empty_dir (n s : String) :
    ¬ IsTemplateFilePath (FSEntry.dir n []) s := by
  intro h
  cases h with
  | dir he _ => exact absurd he (List.not_mem_nil _)

theorem C8_counterexample :
    "d.j2" ∈ (Plugin.mk "core" "/c" [] none
        (some [.dir "d.j2" []])).listTemplates
    ∧ ¬ IsTemplateFilePath (FSEntry.dir "d.j2" []) "d.j2" := by
  constructor
  · show "d.j2" ∈ List.insertionSort (· ≤ ·) (collectList [.dir "d.j2" []] "")
    have hcol : collectList [FSEntry.dir "d.j2" []] "" = ["d.j2"] := by
      simp [collectList, collectEntry, pyEndsWith]
    rw [hcol]
    simp [List.insertionSort]
  · exact not_isTemplateFilePath_empty_dir "d.j2" "d.j2"

/-- C8 (amended): Plugin.list_templates returns the empty list when the
templates directory is absent; otherwise it returns, sorted (the order on
String is lexicographic on the character sequences), exactly the relative
paths of the recursively discovered entries — files and directories alike —
whose name carries the .j2 template suffix, because rglob matches
directories too and the code keeps them. -/
theorem C8_list_templates :
    (∀ p : Plugin, p.templatesDir = none → p.listTemplates = [])
    ∧ (∀ p : Plugin, p.listTemplates.Sorted (· ≤ ·))
    ∧ (∀ (p : Plugin) (es : List FSEntry), p.templatesDir = some es →
        ∀ s : String, s ∈ p.listTemplates ↔ ∃ e ∈ es, IsTemplatePath e s) := by
  refine ⟨?_, ?_, ?_⟩
  · intro p h
    simp [Plugin.listTemplates, h]
  · intro p
    cases h : p.templatesDir with
    | none => simp [Plugin.listTemplates, h]
    | some es =>
      simp only [Plugin.listTemplates, h]
      exact List.sorted_insertionSort _ _
  · intro p es h s
    simp only [Plugin.listTemplates, h]
    rw [(List.perm_insertionSort (· ≤ ·) (collectList es "")).mem_iff]
    rw [mem_collectList es "" s]
    constructor
    · rintro ⟨e, he, q, ht, rfl⟩
      refine ⟨e, he, ?_⟩
      simpa using ht
    · rintro ⟨e, he, ht⟩
      exact ⟨e, he, s, ht, by simp⟩

/-- C8 witness: the theorem applied to a concrete plugin whose templates
root holds a matching file, a non-matching file, a nested matching file and
a directory whose own name matches, and to a plugin with no templates
directory. -/
theorem C8_list_templates_witness :
    ((Plugin.mk "core" "/c" [] none none).listTemplates = [])
    ∧ ((Plugin.mk "core" "/c" [] none
        (some [.file "b.j2", .dir "sub" [.file "a.j2"], .file "x.txt",
               .dir "d.j2" []])).listTemplates.Sorted (· ≤ ·))
    ∧ ("sub/a.j2" ∈ (Plugin.mk "core" "/c" [] none
        (some [.file "b.j2", .dir "sub" [.file "a.j2"], .file "x.txt",
               .dir "d.j2" []])).listTemplates)
    ∧ ("d.j2" ∈ (Plugin.mk "core" "/c" [] none
        (some [.file "b.j2", .dir "sub" [.file "a.j2"], .file "x.txt",
               .dir "d.j2" []])).listTemplates) := by
  refine ⟨?_, ?_, ?_, ?_⟩
  · exact C8_list_templates.1 _ rfl
  · exact C8_list_templates.2.1 _
  · rw [C8_list_templates.2.2 _ _ rfl "sub/a.j2"]
    refine ⟨.dir "sub" [.file "a.j2"], by simp, ?_⟩
    exact IsTemplatePath.dir (List.mem_singleton.mpr rfl)
      (IsTemplatePath.file (by decide))
  · rw [C8_list_templates.2.2 _ _ rfl "d.j2"]
    exact ⟨.dir "d.j2" [], by simp, IsTemplatePath.dirSelf (by decide)⟩

/-! ## Validation system (validation_system.py) -/

/-- Python str.startswith on code points. -/
def pyStartsWith (s pre : String) : Bool :=
  pre.data.isPrefixOf s.data

/-- Truthiness of a configuration value, as Python bool() on the modelled
fragment. -/
def pyTruthy : Val → Bool
  | .str s => !s.isEmpty
  | .dict d => !d.isEmpty
  | .list xs => !xs.isEmpty

/-- Result of a validation check (ValidationResult in
validation_system.py). -/
structure ValidationResult where
  is_valid : Bool
  validator_name : String
  message : String
  errors : List String
  warnings : List String

/-- Inputs passed by Forge._validate_build as validate_all keyword
arguments, plus the filesystem oracle the output-path validator consults:
badParent p = some d models that the parent directory d of path p exists
and is not a directory; none models the healthy case. -/
structure ValidationData where
  config : ForgeConfig
  plugins : List Plugin
  renderConfigs : List RenderConfig
  badParent : String → Option String

/-- Union of all loaded plugins list_templates output (only membership in
the union is consumed, mirroring the Python set). -/
def availableTemplates (plugins : List Plugin) : List String :=
  plugins.flatMap Plugin.listTemplates

/-- PluginValidator.validate: error if no plugins; error per plugin without
a templates directory; warning per plugin exposing zero templates. -/
def pluginValidator (plugins : List Plugin) : ValidationResult :=
  let errors :=
    (if plugins.isEmpty then ["No plugins available"] else [])
    ++ (plugins.filter (fun p => !p.hasTemplates)).map
        (fun p => "Plugin " ++ p.name ++ " has no templates directory")
  let warnings :=
    (plugins.filter (fun p => p.listTemplates.length == 0)).map
      (fun p => "Plugin " ++ p.name ++ " has no templates")
  ⟨errors.isEmpty, "plugin_validator", "", errors, warnings⟩

/-- TemplateValidator.validate: one error per required template (the set of
render templates, modelled as dedup) absent from the union of the plugins
template listings. -/
def templateValidator (renderConfigs : List RenderConfig)
    (plugins : List Plugin) : ValidationResult :=
  let required := (renderConfigs.map RenderConfig.template).dedup
  let errors :=
    (required.filter (fun t => !(availableTemplates plugins).contains t)).map
      (fun t => "Template not found: " ++ t)
  ⟨errors.isEmpty, "template_validator", "", errors, []⟩

/-- Loop body of OutputPathValidator.validate: walk the render list with the
set of outputs seen so far, flagging duplicate outputs as they recur and
output parents that exist but are not directories. -/
def outputPathScan (root : String) (badParent : String → Option String) :
    List RenderConfig → List String → List String
  | [], _ => []
  | c :: cs, seen =>
    let dupErr :=
      if c.output ∈ seen then ["Duplicate output path: " ++ c.output]
      else []
    let seen' := if c.output ∈ seen then seen else c.output :: seen
    let dirErr :=
      match badParent (root ++ "/" ++ c.output) with
      | some d => ["Output directory is not a directory: " ++ d]
      | none => []
    dupErr ++ dirErr ++ outputPathScan root badParent cs seen'

/-- OutputPathValidator.validate. -/
def outputPathValidator (root : String) (badParent : String → Option String)
    (renderConfigs : List RenderConfig) : ValidationResult :=
  let errors := outputPathScan root badParent renderConfigs []
  ⟨errors.isEmpty, "output_path_validator", "", errors, []⟩

/-- ConfigValidator.validate: warnings only (missing project_name variable,
unusual git URL schemes); its error list is always empty. -/
def configValidator (config : ForgeConfig) : ValidationResult :=
  let warnings :=
    (if (alookup "project_name" config.variables').elim false pyTruthy then []
     else ["Missing recommended variable: project_name"])
    ++ (config.plugins.filter (fun p =>
          !(pyStartsWith p.git "http://" || pyStartsWith p.git "https://"
            || pyStartsWith p.git "git@"))).map
        (fun p => "Plugin " ++ p.name ++ " has unusual git URL format")
  ⟨true, "config_validator", "", [], warnings⟩

/-- Closed world of validators appearing in validation_system.py; the
output-path validator carries its project root. -/
inductive Validator where
  | plugin
  | template
  | outputPath (root : String)
  | config

/-- Dispatch of Validator.validate on the validation data. -/
def runValidator (v : Validator) (d : ValidationData) : ValidationResult :=
  match v with
  | .plugin => pluginValidator d.plugins
  | .template => templateValidator d.renderConfigs d.plugins
  | .outputPath root => outputPathValidator root d.badParent d.renderConfigs
  | .config => configValidator d.config

/-- Results reported by ValidationSystem.validate_all: every validator in
the list runs, in order, regardless of earlier failures. -/
def validateAllResults (vs : List Validator) (d : ValidationData) :
    List ValidationResult :=
  vs.map (fun v => runValidator v d)

/-- ValidationSystem.validate_all overall boolean: overall_valid starts true
and is cleared by any result that is not valid. -/
def validateAll (vs : List Validator) (d : ValidationData) : Bool :=
  (validateAllResults vs d).foldl (fun acc r => acc && r.is_valid) true

/-- ValidationSystem.create_default validator list. -/
def defaultValidators (root : String) : List Validator :=
  [.config, .plugin, .template, .outputPath root]

/-! ## C5 -/

theorem foldl_and_eq_all {α : Type} (f : α → Bool) :
    ∀ (l : List α) (b : Bool),
      l.foldl (fun acc x => acc && f x) b = (b && l.all f) := by
  intro l
  induction l with
  | nil => intro b; simp
  | cons a l ih => intro b; simp [List.all_cons, ih, Bool.and_assoc]

theorem runValidator_isValid_iff (v : Validator) (d : ValidationData) :
    (runValidator v d).is_valid = true ↔ (runValidator v d).errors = [] := by
  cases v <;>
    simp [runValidator, pluginValidator, templateValidator,
      outputPathValidator, configValidator, List.isEmpty_iff]

/-- C5: validate_all runs every validator in its list (one result per
validator, in order, no short-circuit) and its boolean outcome is true
exactly when every result carries an empty error list; warnings play no
role in the outcome. -/
theorem C5_validate_all :
    ∀ (vs : List Validator) (d : ValidationData),
      (validateAllResults vs d).length = vs.length
      ∧ (validateAll vs d = true ↔
          ∀ r ∈ validateAllResults vs d, r.errors = []) := by
  intro vs d
  constructor
  · simp [validateAllResults]
  · rw [validateAll, foldl_and_eq_all]
    simp only [Bool.true_and, List.all_eq_true]
    constructor
    · intro h r hr
      obtain ⟨v, hv, rfl⟩ := List.mem_map.mp hr
      exact (runValidator_isValid_iff v d).mp (h _ hr)
    · intro h r hr
      obtain ⟨v, hv, rfl⟩ := List.mem_map.mp hr
      exact (runValidator_isValid_iff v d).mpr (h _ hr)

/-- Concrete validation inputs used by witnesses. -/
def examplePlugin : Plugin :=
  ⟨"core", "/cache/core", [], none, some [.file "Dockerfile.j2"]⟩

/-- Concrete parsed configuration used by witnesses. -/
def exampleConfig : ForgeConfig :=
  ⟨[("project_name", .str "demo")],
   [⟨"core", "https://example.com/core.git", "main", []⟩],
   [⟨"Dockerfile.j2", "Dockerfile"⟩]⟩

/-- Concrete validation data used by witnesses (healthy filesystem). -/
def exampleData : ValidationData :=
  ⟨exampleConfig, [examplePlugin], exampleConfig.render, fun _ => none⟩

/-- C5 witness: the theorem applied to the default validator list on
concrete data. -/
theorem C5_validate_all_witness :
    (validateAllResults (defaultValidators "/p") exampleData).length
      = (defaultValidators "/p").length
    ∧ (validateAll (defaultValidators "/p") exampleData = true ↔
        ∀ r ∈ validateAllResults (defaultValidators "/p") exampleData,
          r.errors = []) :=
  C5_validate_all (defaultValidators "/p") exampleData

/-! ## C6 -/

theorem mem_outputPathScan_dup (root : String)
    (bad : String → Option String) :
    ∀ (cs : List RenderConfig) (seen : List String) (o : String),
      (2 ≤ (cs.map RenderConfig.output).count o ∨
        (1 ≤ (cs.map RenderConfig.output).count o ∧ o ∈ seen)) →
      ("Duplicate output path: " ++ o) ∈ outputPathScan root bad cs seen := by
  intro cs
  induction cs with
  | nil => intro seen o h; simp at h
  | cons c cs ih =>
    intro seen o h
    by_cases hco : c.output = o
    · subst hco
      by_cases hseen : c.output ∈ seen
      · simp [outputPathScan, hseen]
      · have hcnt : (List.map RenderConfig.output (c :: cs)).count c.output
            = (cs.map RenderConfig.output).count c.output + 1 := by
          simp [List.count_cons]
        have hrec : ("Duplicate output path: " ++ c.output)
            ∈ outputPathScan root bad cs (c.output :: seen) := by
          apply ih
          right
          refine ⟨?_, List.mem_cons_self _ _⟩
          rcases h with h2 | ⟨h1, hs⟩
          · omega
          · exact absurd hs hseen
        simp [outputPathScan, hseen, hrec]
    · have hco' : ¬ (o = c.output) := fun hh => hco hh.symm
      have hcnt : (List.map RenderConfig.output (c :: cs)).count o
          = (cs.map RenderConfig.output).count o := by
        simp [List.count_cons, hco']
      by_cases hsc : c.output ∈ seen
      · have hrec : ("Duplicate output path: " ++ o)
            ∈ outputPathScan root bad cs seen := by
          apply ih
          rcases h with h2 | ⟨h1, hs⟩
          · exact Or.inl (by omega)
          · exact Or.inr ⟨by omega, hs⟩
        simp [outputPathScan, hsc, hrec]
      · have hrec : ("Duplicate output path: " ++ o)
            ∈ outputPathScan root bad cs (c.output :: seen) := by
          apply ih
          rcases h with h2 | ⟨h1, hs⟩
          · exact Or.inl (by omega)
          · exact Or.inr ⟨by omega, List.mem_cons_of_mem _ hs⟩
        simp [outputPathScan, hsc, hrec]

/-- C6: a render list containing the same output value twice makes the
output-path validator report the duplicate; the template validator result
depends only on the template names (and the plugins), and the plugin
validator result only on the plugins, so neither can fail because of an
output collision. -/
theorem C6_output_collision :
    (∀ (root : String) (bad : String → Option String)
        (cs : List RenderConfig) (o : String),
        2 ≤ (cs.map RenderConfig.output).count o →
        ("Duplicate output path: " ++ o)
          ∈ (outputPathValidator root bad cs).errors)
    ∧ (∀ d d' : ValidationData, d.plugins = d'.plugins →
        d.renderConfigs.map RenderConfig.template
          = d'.renderConfigs.map RenderConfig.template →
        runValidator .template d = runValidator .template d')
    ∧ (∀ d d' : ValidationData, d.plugins = d'.plugins →
        runValidator .plugin d = runValidator .plugin d') := by
  refine ⟨?_, ?_, ?_⟩
  · intro root bad cs o h
    exact mem_outputPathScan_dup root bad cs [] o (Or.inl h)
  · intro d d' hp ht
    simp [runValidator, templateValidator, hp, ht]
  · intro d d' hp
    simp [runValidator, hp]

/-- C6 witness: two instructions writing to the same output; the duplicate
is flagged by the output-path validator, and the template and plugin
validator results are unchanged by replacing the colliding outputs with
distinct ones. -/
theorem C6_output_collision_witness :
    ("Duplicate output path: out"
      ∈ (outputPathValidator "/p" (fun _ => none)
          [⟨"a.j2", "out"⟩, ⟨"b.j2", "out"⟩]).errors)
    ∧ (runValidator .template
        ⟨exampleConfig, [examplePlugin],
          [⟨"a.j2", "out"⟩, ⟨"b.j2", "out"⟩], fun _ => none⟩
        = runValidator .template
        ⟨exampleConfig, [examplePlugin],
          [⟨"a.j2", "o1"⟩, ⟨"b.j2", "o2"⟩], fun _ => none⟩)
    ∧ (runValidator .plugin
        ⟨exampleConfig, [examplePlugin],
          [⟨"a.j2", "out"⟩, ⟨"b.j2", "out"⟩], fun _ => none⟩
        = runValidator .plugin
        ⟨exampleConfig, [examplePlugin],
          [⟨"a.j2", "o1"⟩, ⟨"b.j2", "o2"⟩], fun _ => none⟩) := by
  refine ⟨?_, ?_, ?_⟩
  · have := C6_output_collision.1 "/p" (fun _ => none)
      [⟨"a.j2", "out"⟩, ⟨"b.j2", "out"⟩] "out" (by decide)
    simpa using this
  · exact C6_output_collision.2.1 _ _ rfl rfl
  · exact C6_output_collision.2.2 _ _ rfl

/-! ## Context builder (context_builder.py) -/

/-- ContextBuilder._deep_merge: fold the source items into the target;
a key whose value is a mapping on both sides merges recursively, anything
else replaces. -/
def deepMerge : List (String × Val) → List (String × Val) → List (String × Val)
  | t, [] => t
  | t, (k, v) :: rest =>
    let newVal :=
      match alookup k t, v with
      | some (.dict td), .dict sd => Val.dict (deepMerge td sd)
      | _, _ => v
    deepMerge (upsert t k newVal) rest
termination_by _ s => sizeOf s
decreasing_by
  all_goals simp
  all_goals omega

/-- Closed world of providers appearing in context_builder.py, each
carrying the data its Python counterpart is constructed with. -/
inductive Provider where
  | ProjectInfoProvider (projectRoot configPath : String)
  | EnvironmentProvider (environment : String)
      (envVariables : List (String × Val))
  | VariablesProvider (variables' : List (String × Val))
  | PluginContextProvider (plugins : List Plugin)

/-- Provider.get_priority values from context_builder.py. -/
def Provider.getPriority : Provider → Nat
  | .ProjectInfoProvider _ _ => 5
  | .EnvironmentProvider _ _ => 15
  | .VariablesProvider _ => 10
  | .PluginContextProvider _ => 20

/-- PluginManifest.model_dump flattened to a plain mapping; no manifest
gives the empty mapping. -/
def manifestDump : Option PluginManifest → List (String × Val)
  | none => []
  | some m =>
    [("name", .str m.name), ("version", .str m.version),
     ("description", .str m.description),
     ("dependencies", .list (m.dependencies.map .str))]

/-- PluginContextProvider.get_context_data inner dict: one entry per
plugin keyed by its name (later same-named plugins overwrite, as Python
dict assignment does). -/
def pluginContextDict (plugins : List Plugin) : List (String × Val) :=
  plugins.foldl
    (fun acc p => upsert acc p.name
      (Val.dict [("config", .dict p.config), ("path", .str p.path),
                 ("manifest", .dict (manifestDump p.manifest))]))
    []

/-- Provider.get_context_data for each provider kind. -/
def Provider.getContextData : Provider → List (String × Val)
  | .ProjectInfoProvider root cfg =>
    [("project_root", .str root), ("config_path", .str cfg)]
  | .EnvironmentProvider env ev =>
    [("environment", .str env), ("env", .dict ev)]
  | .VariablesProvider vs => [("variables", .dict vs)]
  | .PluginContextProvider ps => [("plugins", .dict (pluginContextDict ps))]

/-- Stable insertion into a list already sorted by ascending priority: the
new element goes after every element of priority less than or equal to its
own, which is how Python's stable sorted() orders ties. -/
def insertByPriority : Provider → List Provider → List Provider
  | a, [] => [a]
  | a, b :: l =>
    if b.getPriority ≤ a.getPriority then b :: insertByPriority a l
    else a :: b :: l

/-- Python sorted(providers, key=get_priority): a stable ascending sort. -/
def sortByPriority (l : List Provider) : List Provider :=
  l.foldl (fun acc a => insertByPriority a acc) []

/-- ContextBuilder.build_context: deep-merge the data of the providers in
ascending priority order into an initially empty context. -/
def buildContext (providers : List Provider) : List (String × Val) :=
  (sortByPriority providers).foldl
    (fun ctx pr => deepMerge ctx pr.getContextData) []

/-- Python AttributeError, raised on access to an attribute a pydantic
model does not define. -/
inductive PyError where
  | attributeError (msg : String)

/-- Access of config.environments in ContextBuilder.create_default
(context_builder.py line 156).  ForgeConfig (models.py) defines only the
fields variables, plugins and render, so this attribute access raises
AttributeError on every ForgeConfig value. -/
def getEnvironmentsAttr (_ : ForgeConfig) :
    Except PyError (List (String × List (String × Val))) :=
  .error (.attributeError "ForgeConfig object has no attribute environments")

/-- ContextBuilder.create_default: project-info provider, then the
environment provider (only when the selected environment has a non-empty
variables map), then the variables provider, then the plugin provider.
The access to config.environments raises, so the whole construction
fails; the provider list below the attribute access is the Python code
continued as written. -/
def createDefault (config : ForgeConfig) (plugins : List Plugin)
    (projectRoot configPath environment : String) :
    Except PyError (List Provider) :=
  match getEnvironmentsAttr config with
  | .error e => .error e
  | .ok envs =>
    let envVars := (alookup environment envs).getD []
    .ok ([Provider.ProjectInfoProvider projectRoot configPath]
      ++ (if envVars.isEmpty then []
          else [Provider.EnvironmentProvider environment envVars])
      ++ [Provider.VariablesProvider config.variables',
          Provider.PluginContextProvider plugins])

/-- Forge._build_context: create the default builder from the
configuration and build the context. -/
def forgeBuildContext (config : ForgeConfig) (plugins : List Plugin)
    (projectRoot configPath environment : String) :
    Except PyError (List (String × Val)) :=
  match createDefault config plugins projectRoot configPath environment with
  | .error e => .error e
  | .ok providers => .ok (buildContext providers)

/-! ## C3 -/

/-- C3: the claim says building the rendering context succeeds with an
empty environment contribution when no environments entry exists, and that
the built context contains the selected environment name.  The code
instead raises AttributeError on every input: ContextBuilder.create_default
reads config.environments, a field ForgeConfig does not define (and
test_build_context_creation expects this call to succeed on a plain
ForgeConfig, so the code contradicts its own tests). -/
theorem C3_create_default_attribute_error :
    ∀ (config : ForgeConfig) (plugins : List Plugin)
      (projectRoot configPath environment : String),
      forgeBuildContext config plugins projectRoot configPath environment
        = .error (.attributeError
            "ForgeConfig object has no attribute environments") := by
  intro config plugins projectRoot configPath environment
  rfl

/-! ## C7 -/

/-- C7: context building is deterministic (rebuilding from equal inputs
gives equal contexts) and merges provider data in ascending priority
order: for the default provider set the stable sort arranges project-info
(5), global variables (10), environment (15), plugins (20) in that order,
and build_context folds deep_merge over them left to right. -/
theorem C7_build_context_deterministic_ordered :
    (∀ ps ps' : List Provider, ps = ps' → buildContext ps = buildContext ps')
    ∧ (∀ (root cfg env : String) (ev vars : List (String × Val))
        (plugins : List Plugin),
        (Provider.ProjectInfoProvider root cfg).getPriority = 5
        ∧ (Provider.VariablesProvider vars).getPriority = 10
        ∧ (Provider.EnvironmentProvider env ev).getPriority = 15
        ∧ (Provider.PluginContextProvider plugins).getPriority = 20)
    ∧ (∀ (root cfg env : String) (ev vars : List (String × Val))
        (plugins : List Plugin),
        sortByPriority
          [Provider.ProjectInfoProvider root cfg,
           Provider.EnvironmentProvider env ev,
           Provider.VariablesProvider vars,
           Provider.PluginContextProvider plugins]
          = [Provider.ProjectInfoProvider root cfg,
             Provider.VariablesProvider vars,
             Provider.EnvironmentProvider env ev,
             Provider.PluginContextProvider plugins]
        ∧ buildContext
            [Provider.ProjectInfoProvider root cfg,
             Provider.EnvironmentProvider env ev,
             Provider.VariablesProvider vars,
             Provider.PluginContextProvider plugins]
          = deepMerge (deepMerge (deepMerge (deepMerge []
              (Provider.ProjectInfoProvider root cfg).getContextData)
              (Provider.VariablesProvider vars).getContextData)
              (Provider.EnvironmentProvider env ev).getContextData)
              (Provider.PluginContextProvider plugins).getContextData) := by
  refine ⟨?_, ?_, ?_⟩
  · intro ps ps' h
    rw [h]
  · intro root cfg env ev vars plugins
    exact ⟨rfl, rfl, rfl, rfl⟩
  · intro root cfg env ev vars plugins
    exact ⟨rfl, rfl⟩

/-- C7 witness: the theorem applied at concrete provider data. -/
theorem C7_build_context_witness :
    buildContext
      [Provider.ProjectInfoProvider "/p" "/p/.forge.yml",
       Provider.EnvironmentProvider "base" [("k", .str "v")],
       Provider.VariablesProvider [("project_name", .str "demo")],
       Provider.PluginContextProvider [examplePlugin]]
      = buildContext
      [Provider.ProjectInfoProvider "/p" "/p/.forge.yml",
       Provider.EnvironmentProvider "base" [("k", .str "v")],
       Provider.VariablesProvider [("project_name", .str "demo")],
       Provider.PluginContextProvider [examplePlugin]] :=
  C7_build_context_deterministic_ordered.1 _ _ rfl

/-! ## Nix formatting (generators/compose.py, _format_nix_syntax; the
identical copies in DevenvNixGenerator, FlakeNixGenerator and
HomeNixGenerator are modelled once) -/

/-- Two-space indentation repeated indent_level times. -/
def indentChars (n : Nat) : List Char :=
  List.replicate (2 * n) ' '

/-- Python content.split on a newline: list of lines (at least one, possibly
empty, never containing a newline). -/
def splitNl : List Char → List (List Char)
  | [] => [[]]
  | c :: cs =>
    if c = '\n' then [] :: splitNl cs
    else
      match splitNl cs with
      | [] => [[c]]
      | l :: ls => (c :: l) :: ls

/-- Python newline.join on a list of lines. -/
def joinNl : List (List Char) → List Char
  | [] => []
  | [l] => l
  | l :: ls => l ++ '\n' :: joinNl ls

/-- Loop body of _format_nix_syntax: strip each line; a line ending in an
opening brace is emitted at the current level and increases it, a line
starting with a closing brace decreases the level (floored at zero, which
Nat subtraction does) and is emitted at the decreased level, anything else
is emitted at the current level. -/
def formatLines : List (List Char) → Nat → List (List Char)
  | [], _ => []
  | l :: ls, lvl =>
    let st := pyStripList l
    if st.getLast? = some '\x7b' then
      (indentChars lvl ++ st) :: formatLines ls (lvl + 1)
    else if st.head? = some '\x7d' then
      (indentChars (lvl - 1) ++ st) :: formatLines ls (lvl - 1)
    else
      (indentChars lvl ++ st) :: formatLines ls lvl

/-- DevenvNixGenerator._format_nix_syntax on the character sequence of the
content: split into lines, re-indent from the brace-derived nesting depth,
join with newlines. -/
def formatNixSyntax (content : List Char) : List Char :=
  joinNl (formatLines (splitNl content) 0)

/-- String-level _format_nix_syntax. -/
def formatNix (s : String) : String :=
  ⟨formatNixSyntax s.data⟩

theorem splitNl_ne_nil (cs : List Char) : splitNl cs ≠ [] := by
  cases cs with
  | nil => simp [splitNl]
  | cons c cs =>
    simp only [splitNl]
    split
    · simp
    · cases h : splitNl cs <;> simp

theorem splitNl_no_newline (cs : List Char) :
    ∀ l ∈ splitNl cs, '\n' ∉ l := by
  induction cs with
  | nil => simp [splitNl]
  | cons c cs ih =>
    intro l hl
    simp only [splitNl] at hl
    by_cases hc : c = '\n'
    · rw [if_pos hc] at hl
      rcases List.mem_cons.mp hl with rfl | hl
      · simp
      · exact ih l hl
    · rw [if_neg hc] at hl
      cases h : splitNl cs with
      | nil => exact absurd h (splitNl_ne_nil cs)
      | cons l0 ls0 =>
        rw [h] at hl
        rcases List.mem_cons.mp hl with rfl | hl
        · intro hmem
          rcases List.mem_cons.mp hmem with hh | hh
          · exact hc hh.symm
          · exact ih l0 (h ▸ List.mem_cons_self l0 ls0) hh
        · exact ih l (h ▸ List.mem_cons_of_mem l0 hl)

theorem splitNl_single (l : List Char) (h : '\n' ∉ l) : splitNl l = [l] := by
  induction l with
  | nil => rfl
  | cons c cs ih =>
    have hc : ¬ (c = '\n') := fun hh => h (hh ▸ List.mem_cons_self c cs)
    have hcs : '\n' ∉ cs := fun hh => h (List.mem_cons_of_mem c hh)
    simp only [splitNl, if_neg hc, ih hcs]

theorem splitNl_append (l rest : List Char) (h : '\n' ∉ l) :
    splitNl (l ++ '\n' :: rest) = l :: splitNl rest := by
  induction l with
  | nil => simp [splitNl]
  | cons c cs ih =>
    have hc : ¬ (c = '\n') := fun hh => h (hh ▸ List.mem_cons_self c cs)
    have hcs : '\n' ∉ cs := fun hh => h (List.mem_cons_of_mem c hh)
    simp only [List.cons_append, splitNl, if_neg hc]
    rw [show cs.append ('\n' :: rest) = cs ++ '\n' :: rest from rfl, ih hcs]

theorem splitNl_joinNl (ls : List (List Char)) (hne : ls ≠ [])
    (h : ∀ l ∈ ls, '\n' ∉ l) : splitNl (joinNl ls) = ls := by
  induction ls with
  | nil => exact absurd rfl hne
  | cons l ls ih =>
    cases ls with
    | nil =>
      simp only [joinNl]
      exact splitNl_single l (h l (List.mem_cons_self _ _))
    | cons l' ls' =>
      have hjoin : joinNl (l :: l' :: ls') = l ++ '\n' :: joinNl (l' :: ls') := rfl
      rw [hjoin, splitNl_append l _ (h l (List.mem_cons_self _ _))]
      rw [ih (by simp) (fun x hx => h x (List.mem_cons_of_mem l hx))]

theorem pyStripList_eq_rdrop (l : List Char) :
    pyStripList l = List.rdropWhile pyIsSpace (List.dropWhile pyIsSpace l) :=
  rfl

theorem dropWhile_replicate_space (n : Nat) (s : List Char) :
    List.dropWhile pyIsSpace (List.replicate n ' ' ++ s)
      = List.dropWhile pyIsSpace s := by
  induction n with
  | zero => simp
  | succ n ih =>
    have hsp : pyIsSpace ' ' = true := rfl
    simp [List.replicate_succ, List.dropWhile_cons, hsp, ih]

theorem pyStripList_indent_append (n : Nat) (s : List Char) :
    pyStripList (indentChars n ++ s) = pyStripList s := by
  simp [pyStripList, indentChars, dropWhile_replicate_space]

theorem dropWhile_pyStripList (l : List Char) :
    List.dropWhile pyIsSpace (pyStripList l) = pyStripList l := by
  rw [pyStripList_eq_rdrop]
  have hid : List.dropWhile pyIsSpace (List.dropWhile pyIsSpace l)
      = List.dropWhile pyIsSpace l := List.dropWhile_idempotent _ _
  obtain ⟨t, ht⟩ :=
    List.rdropWhile_prefix pyIsSpace (List.dropWhile pyIsSpace l)
  cases hB : List.rdropWhile pyIsSpace (List.dropWhile pyIsSpace l) with
  | nil => rfl
  | cons b bs =>
    rw [hB] at ht
    have hfull : List.dropWhile pyIsSpace ((b :: bs) ++ t) = (b :: bs) ++ t := by
      rw [ht, hid]
    have hhead : pyIsSpace b = false := by
      by_contra hb
      have hb' : pyIsSpace b = true := by
        cases hbv : pyIsSpace b
        · exact absurd hbv hb
        · rfl
      rw [List.cons_append, List.dropWhile_cons, hb', if_pos rfl] at hfull
      have hlen := congrArg List.length hfull
      have hle := (List.dropWhile_suffix
        (l := bs ++ t) pyIsSpace).sublist.length_le
      have happ : (bs ++ t).length = bs.length + t.length := by simp
      simp at hlen
      omega
    rw [List.dropWhile_cons, hhead]
    simp

theorem pyStripList_idem (l : List Char) :
    pyStripList (pyStripList l) = pyStripList l := by
  rw [pyStripList_eq_rdrop (pyStripList l), dropWhile_pyStripList,
    pyStripList_eq_rdrop l, List.rdropWhile_idempotent]

theorem mem_of_mem_pyStripList {x : Char} {l : List Char}
    (h : x ∈ pyStripList l) : x ∈ l := by
  rw [pyStripList_eq_rdrop] at h
  have h1 : x ∈ List.dropWhile pyIsSpace l :=
    (List.rdropWhile_prefix pyIsSpace _).subset h
  exact (List.dropWhile_suffix pyIsSpace).subset h1

theorem formatLines_length (ls : List (List Char)) (lvl : Nat) :
    (formatLines ls lvl).length = ls.length := by
  induction ls generalizing lvl with
  | nil => rfl
  | cons l ls ih =>
    simp only [formatLines]
    split
    · simp [ih]
    · split
      · simp [ih]
      · simp [ih]

theorem map_strip_formatLines (ls : List (List Char)) (lvl : Nat) :
    (formatLines ls lvl).map pyStripList = ls.map pyStripList := by
  induction ls generalizing lvl with
  | nil => rfl
  | cons l ls ih =>
    simp only [formatLines]
    split
    · simp only [List.map_cons]
      rw [pyStripList_indent_append, pyStripList_idem, ih]
    · split
      · simp only [List.map_cons]
        rw [pyStripList_indent_append, pyStripList_idem, ih]
      · simp only [List.map_cons]
        rw [pyStripList_indent_append, pyStripList_idem, ih]

theorem formatLines_congr (ls : List (List Char)) :
    ∀ (ls' : List (List Char)) (lvl : Nat),
      ls.map pyStripList = ls'.map pyStripList →
      formatLines ls lvl = formatLines ls' lvl := by
  induction ls with
  | nil =>
    intro ls' lvl h
    cases ls' with
    | nil => rfl
    | cons _ _ => simp at h
  | cons l ls ih =>
    intro ls' lvl h
    cases ls' with
    | nil => simp at h
    | cons l' ls2 =>
      simp only [List.map_cons, List.cons.injEq] at h
      obtain ⟨h1, h2⟩ := h
      simp only [formatLines, h1]
      split
      · rw [ih ls2 (lvl + 1) h2]
      · split
        · rw [ih ls2 (lvl - 1) h2]
        · rw [ih ls2 lvl h2]

theorem formatLines_no_newline (ls : List (List Char)) (lvl : Nat)
    (h : ∀ l ∈ ls, '\n' ∉ l) :
    ∀ l' ∈ formatLines ls lvl, '\n' ∉ l' := by
  induction ls generalizing lvl with
  | nil => simp [formatLines]
  | cons l ls ih =>
    have hnl : ∀ k : Nat, '\n' ∉ indentChars k ++ pyStripList l := by
      intro k hmem
      rcases List.mem_append.mp hmem with hm | hm
      · have := List.eq_of_mem_replicate (hm : '\n' ∈ List.replicate (2 * k) ' ')
        simp at this
      · exact h l (List.mem_cons_self _ _) (mem_of_mem_pyStripList hm)
    have htail : ∀ x ∈ ls, '\n' ∉ x :=
      fun x hx => h x (List.mem_cons_of_mem l hx)
    intro l' hl'
    simp only [formatLines] at hl'
    split at hl'
    · rcases List.mem_cons.mp hl' with rfl | hl'
      · exact hnl lvl
      · exact ih (lvl + 1) htail l' hl'
    · split at hl'
      · rcases List.mem_cons.mp hl' with rfl | hl'
        · exact hnl (lvl - 1)
        · exact ih (lvl - 1) htail l' hl'
      · rcases List.mem_cons.mp hl' with rfl | hl'
        · exact hnl lvl
        · exact ih lvl htail l' hl'

theorem formatNixSyntax_idem (cs : List Char) :
    formatNixSyntax (formatNixSyntax cs) = formatNixSyntax cs := by
  unfold formatNixSyntax
  have hnl : ∀ l ∈ splitNl cs, '\n' ∉ l := splitNl_no_newline cs
  have hFnl : ∀ l' ∈ formatLines (splitNl cs) 0, '\n' ∉ l' :=
    formatLines_no_newline (splitNl cs) 0 hnl
  have hFne : formatLines (splitNl cs) 0 ≠ [] := by
    intro hc
    have h0 : (splitNl cs).length = 0 := by
      rw [← formatLines_length (splitNl cs) 0, hc]
      rfl
    exact splitNl_ne_nil cs (List.length_eq_zero.mp h0)
  rw [splitNl_joinNl _ hFne hFnl]
  exact congrArg joinNl
    (formatLines_congr _ _ 0 (map_strip_formatLines (splitNl cs) 0))

/-- C10: the Nix formatting transform is idempotent: a second application
of _format_nix_syntax returns its input unchanged, because each pass strips
every line and re-indents purely from the brace-derived nesting depth,
which the first pass does not alter. -/
theorem C10_format_nix_idempotent :
    ∀ s : String, formatNix (formatNix s) = formatNix s := by
  intro s
  show String.mk (formatNixSyntax (String.mk (formatNixSyntax s.data)).data)
    = String.mk (formatNixSyntax s.data)
  exact congrArg String.mk (formatNixSyntax_idem s.data)

/-! ## Plugin cloning (plugin.py: PluginManager._clone_plugin and
_checkout_version).  Git effects are an oracle, the filesystem a list of
existing paths.  The exception taxonomy matters: GitOperationError
(exceptions.py) subclasses PluginError, not git.exc.GitCommandError. -/

/-- Exceptions crossing _clone_plugin: the underlying git library error and
the package's own wrapper. -/
inductive GitExc where
  | gitCommandError (msg : String)
  | gitOperationError (msg : String)

/-- Outcome oracle for the git operations of one clone attempt. -/
structure GitWorld where
  cloneResult : Option String
  clonePartial : Bool
  checkoutResult : Option String

/-- Record a created directory. -/
def addPath (st : List String) (p : String) : List String :=
  if p ∈ st then st else p :: st

/-- shutil.rmtree: the path no longer exists afterwards. -/
def removePath (st : List String) (p : String) : List String :=
  st.filter (fun q => !(q == p))

/-- PluginManager._checkout_version: a GitCommandError from git checkout is
re-raised as GitOperationError naming the version and the cause. -/
def checkoutVersion (w : GitWorld) (version : String) : Except GitExc Unit :=
  match w.checkoutResult with
  | none => .ok ()
  | some m =>
    .error (.gitOperationError
      ("Failed to checkout version " ++ version ++ ": " ++ m))

/-- PluginManager._clone_plugin: clone_from then _checkout_version inside a
try block whose except clause catches only git.exc.GitCommandError; that
clause removes the target directory if it exists and re-raises a
GitOperationError naming the plugin.  A GitOperationError coming out of
_checkout_version is not caught, so it propagates without cleanup. -/
def clonePlugin (w : GitWorld) (pluginName version targetPath : String)
    (st : List String) : Except GitExc String × List String :=
  match w.cloneResult with
  | none =>
    let st1 := addPath st targetPath
    match checkoutVersion w version with
    | .ok _ => (.ok targetPath, st1)
    | .error e =>
      match e with
      | .gitCommandError m =>
        let st2 := removePath st1 targetPath
        (.error (.gitOperationError
          ("Failed to clone plugin " ++ pluginName ++ ": " ++ m)), st2)
      | .gitOperationError _ => (.error e, st1)
  | some m =>
    let st1 := if w.clonePartial then addPath st targetPath else st
    let st2 := if targetPath ∈ st1 then removePath st1 targetPath else st1
    (.error (.gitOperationError
      ("Failed to clone plugin " ++ pluginName ++ ": " ++ m)), st2)

/-! ## C2 -/

/-- C2 counterexample: clone succeeds (creating the cache directory) and the
version checkout fails.  _checkout_version wraps the git failure in a
GitOperationError, which the clone handler (catching only GitCommandError)
does not intercept, so the error propagates while the freshly cloned
directory stays on disk — orphaned partial state, contrary to the claim. -/
theorem C2_counterexample :
    (clonePlugin ⟨none, false, some "boom"⟩ "core" "v1" "/cache/core" []).1
      = .error (.gitOperationError "Failed to checkout version v1: boom")
    ∧ "/cache/core"
        ∈ (clonePlugin ⟨none, false, some "boom"⟩ "core" "v1" "/cache/core" []).2 := by
  constructor
  · rfl
  · simp [clonePlugin, checkoutVersion, addPath]

/-- C2 (amended): every clone or checkout failure surfaces as a
GitOperationError naming the offending plugin or version together with the
underlying cause; on a clone-command failure the partially created
directory is removed before the error propagates, but on a checkout
failure after a successful clone the cloned cache directory is left in
place (only GitCommandError triggers the cleanup handler). -/
theorem C2_clone_failure_cleanup :
    (∀ (w : GitWorld) (pluginName version target : String) (st : List String)
       (m : String), w.cloneResult = some m → target ∉ st →
       (clonePlugin w pluginName version target st).1
         = .error (.gitOperationError
             ("Failed to clone plugin " ++ pluginName ++ ": " ++ m))
       ∧ target ∉ (clonePlugin w pluginName version target st).2)
    ∧ (∀ (w : GitWorld) (pluginName version target : String) (st : List String)
       (m : String), w.cloneResult = none → w.checkoutResult = some m →
       (clonePlugin w pluginName version target st).1
         = .error (.gitOperationError
             ("Failed to checkout version " ++ version ++ ": " ++ m))
       ∧ target ∈ (clonePlugin w pluginName version target st).2) := by
  constructor
  · intro w pluginName version target st m hc hni
    refine ⟨by simp [clonePlugin, hc], ?_⟩
    simp only [clonePlugin, hc]
    by_cases hp : w.clonePartial
    · simp [hp, addPath, hni, removePath, List.mem_filter]
    · simp [hp, addPath, hni, removePath, List.mem_filter]
  · intro w pluginName version target st m hc hk
    refine ⟨by simp [clonePlugin, hc, checkoutVersion, hk], ?_⟩
    simp only [clonePlugin, hc, checkoutVersion, hk]
    by_cases hm : target ∈ st
    · simp [addPath, hm]
    · simp [addPath, hm]

/-- C2 witness: the amended theorem applied at a failing clone (partial
directory present) and at a failing checkout. -/
theorem C2_clone_failure_cleanup_witness :
    ((clonePlugin ⟨some "netdown", true, none⟩ "core" "main" "/cache/core" []).1
      = .error (.gitOperationError "Failed to clone plugin core: netdown")
      ∧ "/cache/core"
          ∉ (clonePlugin ⟨some "netdown", true, none⟩ "core" "main" "/cache/core" []).2)
    ∧ ((clonePlugin ⟨none, false, some "no ref"⟩ "core" "v2" "/cache/core" []).1
      = .error (.gitOperationError "Failed to checkout version v2: no ref")
      ∧ "/cache/core"
          ∈ (clonePlugin ⟨none, false, some "no ref"⟩ "core" "v2" "/cache/core" []).2) := by
  constructor
  · exact C2_clone_failure_cleanup.1 ⟨some "netdown", true, none⟩ "core" "main"
      "/cache/core" [] "netdown" rfl (by simp)
  · exact C2_clone_failure_cleanup.2 ⟨none, false, some "no ref"⟩ "core" "v2"
      "/cache/core" [] "no ref" rfl rfl

/-! ## Template rendering and output (template_renderer.py,
output_manager.py).  The Jinja environment is abstracted as a lookup
gt : template name → rendered text (none models TemplateNotFound for a
fixed context); filesystem writes are the returned list, in order. -/

/-- Loop of JinjaTemplateRenderer.render_templates: results is a dict keyed
by template name, so a template rendered again overwrites its entry. -/
def renderTemplatesAux (gt : String → Option String) :
    List RenderConfig → List (String × String) →
    Except String (List (String × String))
  | [], acc => .ok acc
  | c :: cs, acc =>
    match gt c.template with
    | none => .error ("Template not found: " ++ c.template)
    | some content => renderTemplatesAux gt cs (upsert acc c.template content)

/-- JinjaTemplateRenderer.render_templates. -/
def renderTemplates (gt : String → Option String) (cs : List RenderConfig) :
    Except String (List (String × String)) :=
  renderTemplatesAux gt cs []

/-- config_map of OutputManager.write_rendered_templates: a dict comprehension
keyed by template, so the last instruction with a given template wins. -/
def configMap (cs : List RenderConfig) : List (String × RenderConfig) :=
  cs.foldl (fun acc c => upsert acc c.template c) []

/-- Loop of OutputManager.write_rendered_templates: each rendered entry is
written to project_root slash the output of its config_map instruction (the
write strategy itself is assumed to succeed; write failures are wrapped
errors out of scope here). -/
def writeRendered (root : String) (cmap : List (String × RenderConfig)) :
    List (String × String) → Except String (List (String × String))
  | [] => .ok []
  | (t, content) :: rest =>
    match alookup t cmap with
    | none => .error ("No render config found for template: " ++ t)
    | some cfg =>
      match writeRendered root cmap rest with
      | .error e => .error e
      | .ok ws => .ok ((root ++ "/" ++ cfg.output, content) :: ws)

/-! ## Association-list dictionary lemmas -/

theorem alookup_upsert_self {α : Type} (d : List (String × α)) (k : String)
    (v : α) : alookup k (upsert d k v) = some v := by
  induction d with
  | nil => simp [upsert, alookup]
  | cons kv rest ih =>
    obtain ⟨k0, v0⟩ := kv
    by_cases h : k0 = k
    · simp [upsert, h, alookup]
    · simp [upsert, h, alookup, ih]

theorem alookup_upsert_ne {α : Type} (d : List (String × α)) (k k' : String)
    (v : α) (h : k' ≠ k) : alookup k' (upsert d k v) = alookup k' d := by
  induction d with
  | nil => simp [upsert, alookup, Ne.symm h]
  | cons kv rest ih =>
    obtain ⟨k0, v0⟩ := kv
    by_cases h0 : k0 = k
    · subst h0
      simp [upsert, alookup, Ne.symm h]
    · simp [upsert, h0, alookup, ih]

theorem keys_upsert {α : Type} (d : List (String × α)) (k : String) (v : α) :
    (upsert d k v).map Prod.fst
      = if k ∈ d.map Prod.fst then d.map Prod.fst
        else d.map Prod.fst ++ [k] := by
  induction d with
  | nil => simp [upsert]
  | cons kv rest ih =>
    obtain ⟨k0, v0⟩ := kv
    by_cases h : k0 = k
    · subst h
      simp [upsert]
    · have hne : ¬ (k = k0) := fun hh => h hh.symm
      simp only [upsert, if_neg h, List.map_cons, ih, List.mem_cons, hne,
        false_or]
      by_cases hm : k ∈ rest.map Prod.fst
      · simp [hm]
      · simp [hm]

theorem mem_keys_upsert {α : Type} (d : List (String × α)) (k t : String)
    (v : α) :
    (t ∈ (upsert d k v).map Prod.fst) ↔ t = k ∨ t ∈ d.map Prod.fst := by
  rw [keys_upsert]
  by_cases hm : k ∈ d.map Prod.fst
  · simp only [hm, if_pos]
    constructor
    · exact Or.inr
    · rintro (rfl | h)
      · exact hm
      · exact h
  · rw [if_neg hm]
    simp only [List.mem_append, List.mem_singleton]
    tauto

theorem keys_upsert_nodup {α : Type} (d : List (String × α)) (k : String)
    (v : α) (h : (d.map Prod.fst).Nodup) :
    ((upsert d k v).map Prod.fst).Nodup := by
  rw [keys_upsert]
  by_cases hm : k ∈ d.map Prod.fst
  · simpa [hm] using h
  · simp [hm, List.nodup_append, h]

theorem alookup_foldl_upsert (cs : List RenderConfig) :
    ∀ (acc : List (String × RenderConfig)) (k : String),
      alookup k (cs.foldl (fun a c => upsert a c.template c) acc)
        = ((cs.filter (fun c => c.template == k)).getLast?).or
            (alookup k acc) := by
  induction cs with
  | nil => intro acc k; simp
  | cons c cs ih =>
    intro acc k
    by_cases hc : c.template = k
    · have hfil : (c :: cs).filter (fun c => c.template == k)
          = c :: cs.filter (fun c => c.template == k) := by
        simp [List.filter_cons, hc]
      rw [List.foldl_cons, ih, hfil, hc, alookup_upsert_self]
      cases hl : (cs.filter (fun c => c.template == k)).getLast? with
      | none =>
        have hnil : cs.filter (fun c => c.template == k) = [] := by
          by_contra hne
          have hs := List.getLast?_isSome.mpr hne
          rw [hl] at hs
          simp at hs
        rw [hnil]
        simp [Option.or]
      | some a =>
        have hne : cs.filter (fun c => c.template == k) ≠ [] := by
          intro hnil
          rw [hnil] at hl
          simp at hl
        have heq : (c :: cs.filter (fun c => c.template == k)).getLast?
            = (cs.filter (fun c => c.template == k)).getLast? := by
          cases hfe : cs.filter (fun c => c.template == k) with
          | nil => exact absurd hfe hne
          | cons b bs => rfl
        rw [heq, hl]
        rfl
    · have hfil : (c :: cs).filter (fun c => c.template == k)
          = cs.filter (fun c => c.template == k) := by
        simp [List.filter_cons, hc]
      rw [List.foldl_cons, ih, hfil, alookup_upsert_ne _ _ _ _
        (fun hh => hc hh.symm)]

theorem alookup_configMap (cs : List RenderConfig) (k : String) :
    alookup k (configMap cs)
      = (cs.filter (fun c => c.template == k)).getLast? := by
  rw [configMap, alookup_foldl_upsert]
  simp [alookup]

theorem alookup_configMap_mem {cs : List RenderConfig} {k : String}
    {cfg : RenderConfig} (h : alookup k (configMap cs) = some cfg) :
    cfg ∈ cs ∧ cfg.template = k := by
  rw [alookup_configMap] at h
  have hmem := List.mem_of_mem_getLast? h
  rw [List.mem_filter] at hmem
  exact ⟨hmem.1, by simpa using hmem.2⟩

theorem renderTemplatesAux_spec (gt : String → Option String) :
    ∀ (cs : List RenderConfig) (acc : List (String × String)),
      (∀ c ∈ cs, (gt c.template).isSome = true) →
      (acc.map Prod.fst).Nodup →
      ∃ res, renderTemplatesAux gt cs acc = .ok res
        ∧ (res.map Prod.fst).Nodup
        ∧ (∀ t, t ∈ res.map Prod.fst ↔
            t ∈ cs.map RenderConfig.template ∨ t ∈ acc.map Prod.fst) := by
  intro cs
  induction cs with
  | nil =>
    intro acc _ hnd
    exact ⟨acc, rfl, hnd, by simp⟩
  | cons c cs ih =>
    intro acc hs hnd
    have hc : (gt c.template).isSome = true := hs c (List.mem_cons_self _ _)
    obtain ⟨content, hcontent⟩ := Option.isSome_iff_exists.mp hc
    have hnd' : ((upsert acc c.template content).map Prod.fst).Nodup :=
      keys_upsert_nodup acc c.template content hnd
    obtain ⟨res, hres, hresnd, hresmem⟩ :=
      ih (upsert acc c.template content)
        (fun x hx => hs x (List.mem_cons_of_mem _ hx)) hnd'
    refine ⟨res, ?_, hresnd, ?_⟩
    · simp only [renderTemplatesAux, hcontent]
      exact hres
    · intro t
      rw [hresmem t, mem_keys_upsert]
      simp only [List.map_cons, List.mem_cons]
      tauto

theorem writeRendered_paths (root : String)
    (cmap : List (String × RenderConfig)) :
    ∀ (rendered : List (String × String)),
      (∀ p ∈ rendered, (alookup p.1 cmap).isSome = true) →
      ∃ ws, writeRendered root cmap rendered = .ok ws
        ∧ ws.map Prod.fst = rendered.map (fun p =>
            root ++ "/" ++ (match alookup p.1 cmap with
                            | some cfg => cfg.output
                            | none => "")) := by
  intro rendered
  induction rendered with
  | nil => intro _; exact ⟨[], rfl, rfl⟩
  | cons p rest ih =>
    intro hs
    obtain ⟨t, content⟩ := p
    have hc : (alookup t cmap).isSome = true :=
      hs (t, content) (List.mem_cons_self _ _)
    obtain ⟨cfg, hcfg⟩ := Option.isSome_iff_exists.mp hc
    obtain ⟨ws, hws, hpaths⟩ :=
      ih (fun x hx => hs x (List.mem_cons_of_mem _ hx))
    refine ⟨(root ++ "/" ++ cfg.output, content) :: ws, ?_, ?_⟩
    · simp only [writeRendered, hcfg, hws]
    · simp only [List.map_cons, hpaths, hcfg]

theorem strAppend_cancel_left {s a b : String} (h : s ++ a = s ++ b) :
    a = b := by
  have hd := congrArg String.data h
  simp only [String.data_append] at hd
  exact String.ext (List.append_cancel_left hd)

/-- Helper: every referenced template name has a config_map entry. -/
theorem configMap_isSome_of_mem {cs : List RenderConfig} {k : String}
    (h : k ∈ cs.map RenderConfig.template) :
    ∃ cfg, alookup k (configMap cs) = some cfg := by
  rw [alookup_configMap]
  apply Option.isSome_iff_exists.mp
  apply List.getLast?_isSome.mpr
  obtain ⟨c0, hc0, hc0t⟩ := List.mem_map.mp h
  intro hnil
  have hcf : c0 ∈ cs.filter (fun c => c.template == k) :=
    List.mem_filter.mpr ⟨hc0, by simp [hc0t]⟩
  rw [hnil] at hcf
  simp at hcf

/-- C9: when the render list references the same template twice (with the
render outputs pairwise distinct, as validation requires), render_templates
produces exactly one entry keyed by that template, and the output manager
writes exactly one file for it, at the output path of the last instruction
carrying the template; the output path of every earlier instruction with
that template is never written. -/
theorem C9_duplicate_template_single_write :
    ∀ (root : String) (gt : String → Option String) (cs : List RenderConfig)
      (t : String),
      (∀ c ∈ cs, (gt c.template).isSome = true) →
      (cs.map RenderConfig.output).Nodup →
      2 ≤ (cs.map RenderConfig.template).count t →
      ∃ res ws clast,
        renderTemplates gt cs = .ok res
        ∧ (res.map Prod.fst).count t = 1
        ∧ (cs.filter (fun c => c.template == t)).getLast? = some clast
        ∧ writeRendered root (configMap cs) res = .ok ws
        ∧ (ws.map Prod.fst).count (root ++ "/" ++ clast.output) = 1
        ∧ (∀ c ∈ cs, c.template = t → c ≠ clast →
            (root ++ "/" ++ c.output) ∉ ws.map Prod.fst) := by
  intro root gt cs t hgt hnodup hcount
  have htin : t ∈ cs.map RenderConfig.template := by
    by_contra h
    have h0 : (cs.map RenderConfig.template).count t = 0 :=
      List.count_eq_zero.mpr h
    omega
  obtain ⟨res, hres, hknd, hkmem⟩ :=
    renderTemplatesAux_spec gt cs [] hgt (by simp)
  have hresks : ∀ s, s ∈ res.map Prod.fst ↔
      s ∈ cs.map RenderConfig.template := by
    intro s
    rw [hkmem s]
    simp
  have htres : t ∈ res.map Prod.fst := (hresks t).mpr htin
  have hcount1 : (res.map Prod.fst).count t = 1 :=
    List.count_eq_one_of_mem hknd htres
  obtain ⟨clast, hclastMap⟩ := configMap_isSome_of_mem htin
  have hclastLast : (cs.filter (fun c => c.template == t)).getLast?
      = some clast := by
    rw [← alookup_configMap]
    exact hclastMap
  obtain ⟨hclastMem, hclastTempl⟩ := alookup_configMap_mem hclastMap
  have hlook : ∀ p ∈ res, (alookup p.1 (configMap cs)).isSome = true := by
    intro p hp
    have hp1 : p.1 ∈ res.map Prod.fst := List.mem_map.mpr ⟨p, hp, rfl⟩
    obtain ⟨cfg, hcfg⟩ := configMap_isSome_of_mem ((hresks p.1).mp hp1)
    simp [hcfg]
  obtain ⟨ws, hws, hwpaths⟩ := writeRendered_paths root (configMap cs) res hlook
  have hwpaths' : ws.map Prod.fst = (res.map Prod.fst).map (fun k =>
      root ++ "/" ++ (match alookup k (configMap cs) with
                      | some cfg => cfg.output
                      | none => "")) := by
    rw [hwpaths, List.map_map]
    rfl
  -- the written path of a key equals the winning instruction's output,
  -- and two keys share a written path only if they coincide
  have hkey_out : ∀ k ∈ res.map Prod.fst, ∀ cfg,
      alookup k (configMap cs) = some cfg →
      (cfg.output = clast.output ↔ k = t) := by
    intro k hk cfg hcfg
    obtain ⟨hcfgMem, hcfgTempl⟩ := alookup_configMap_mem hcfg
    constructor
    · intro hout
      have : cfg = clast :=
        List.inj_on_of_nodup_map hnodup hcfgMem hclastMem hout
      rw [← hcfgTempl, this, hclastTempl]
    · intro hk
      subst hk
      rw [hcfg] at hclastMap
      simp only [Option.some.injEq] at hclastMap
      rw [hclastMap]
  refine ⟨res, ws, clast, hres, hcount1, hclastLast, hws, ?_, ?_⟩
  · rw [hwpaths', List.count_eq_countP, List.countP_map]
    have hcongr : ∀ k ∈ res.map Prod.fst,
        ((root ++ "/" ++ (match alookup k (configMap cs) with
           | some cfg => cfg.output
           | none => "")) == root ++ "/" ++ clast.output) = true
        ↔ (k == t) = true := by
      intro k hk
      obtain ⟨cfg, hcfg⟩ := configMap_isSome_of_mem ((hresks k).mp hk)
      rw [hcfg]
      simp only [beq_iff_eq]
      constructor
      · intro h
        exact (hkey_out k hk cfg hcfg).mp (strAppend_cancel_left h)
      · intro h
        rw [(hkey_out k hk cfg hcfg).mpr h]
    simp only [Function.comp_def]
    rw [List.countP_congr hcongr, ← List.count_eq_countP, hcount1]
  · intro c hc hct hcne hmem
    rw [hwpaths'] at hmem
    obtain ⟨k, hk, hkpath⟩ := List.mem_map.mp hmem
    obtain ⟨cfg, hcfg⟩ := configMap_isSome_of_mem ((hresks k).mp hk)
    rw [hcfg] at hkpath
    have hout : cfg.output = c.output := strAppend_cancel_left hkpath
    obtain ⟨hcfgMem, hcfgTempl⟩ := alookup_configMap_mem hcfg
    have hceq : cfg = c := List.inj_on_of_nodup_map hnodup hcfgMem hc hout
    have hkt : k = t := by rw [← hcfgTempl, hceq, hct]
    rw [hkt, hclastMap] at hcfg
    simp only [Option.some.injEq] at hcfg
    exact hcne (by rw [← hceq, hcfg])

/-- C9 witness: the theorem applied to a configuration whose two
instructions both render a.j2 to different outputs. -/
theorem C9_duplicate_template_single_write_witness :
    ∃ res ws clast,
      renderTemplates (fun _ => some "X")
        [⟨"a.j2", "f1"⟩, ⟨"a.j2", "f2"⟩] = .ok res
      ∧ (res.map Prod.fst).count "a.j2" = 1
      ∧ (([⟨"a.j2", "f1"⟩, ⟨"a.j2", "f2"⟩] : List RenderConfig).filter
          (fun c => c.template == "a.j2")).getLast? = some clast
      ∧ writeRendered "/p" (configMap [⟨"a.j2", "f1"⟩, ⟨"a.j2", "f2"⟩]) res
          = .ok ws
      ∧ (ws.map Prod.fst).count ("/p" ++ "/" ++ clast.output) = 1
      ∧ (∀ c ∈ ([⟨"a.j2", "f1"⟩, ⟨"a.j2", "f2"⟩] : List RenderConfig),
          c.template = "a.j2" → c ≠ clast →
          ("/p" ++ "/" ++ c.output) ∉ ws.map Prod.fst) :=
  C9_duplicate_template_single_write "/p" (fun _ => some "X")
    [⟨"a.j2", "f1"⟩, ⟨"a.j2", "f2"⟩] "a.j2"
    (fun c _ => rfl) (by decide) (by decide)

/-! ## Forge.build pipeline (forge.py) -/

/-- Errors crossing Forge.build. -/
inductive BuildError where
  | attributeError (msg : String)
  | configError (msg : String)
  | templateError (msg : String)
deriving DecidableEq

/-- Forge.build with plugins already loaded (the plugin manager is out of
scope): guard on configured plugins, build the context, validate, create
the renderer (error when no plugin has templates), render, write.
Generator post-processing is the identity here: none of the settled claims
reaches it, and the pipeline fails at context building regardless. -/
def forgeBuild (config : ForgeConfig) (plugins : List Plugin)
    (projectRoot configPath environment : String)
    (badParent : String → Option String) (gt : String → Option String) :
    Except BuildError (List (String × String)) :=
  if config.plugins.isEmpty then .error (.configError "No plugins configured")
  else
    match forgeBuildContext config plugins projectRoot configPath environment with
    | .error (.attributeError m) => .error (.attributeError m)
    | .ok _ctx =>
      if validateAll (defaultValidators projectRoot)
          ⟨config, plugins, config.render, badParent⟩ then
        if (plugins.filter (fun p => p.hasTemplates)).isEmpty then
          .error (.templateError "No template directories found in any plugins")
        else
          match renderTemplates gt config.render with
          | .error m => .error (.templateError m)
          | .ok rendered =>
            match writeRendered projectRoot (configMap config.render) rendered with
            | .error m => .error (.templateError m)
            | .ok ws => .ok ws
      else .error (.configError "Build validation failed")

/-! ## C4 -/

/-- Concrete configuration whose only render instruction references a
template exposed by no plugin. -/
def cfgMissingTemplate : ForgeConfig :=
  ⟨[], [⟨"core", "https://example.com/core.git", "main", []⟩],
   [⟨"missing.j2", "Dockerfile"⟩]⟩

/-- Concrete plugin with an empty templates directory. -/
def pluginEmptyTemplates : Plugin :=
  ⟨"core", "/cache/core", [], none, some []⟩

/-- C4 counterexample: with a render instruction referencing a template
absent from every loaded plugin, build does not fail with a TemplateError
naming that template; it fails earlier, with the AttributeError raised by
context building (and, were that fixed, validation failure would surface
as ConfigError, not TemplateError). -/
theorem C4_counterexample :
    forgeBuild cfgMissingTemplate [pluginEmptyTemplates] "/p" "/p/.forge.yml"
        "base" (fun _ => none) (fun _ => none)
      = .error (.attributeError "ForgeConfig object has no attribute environments")
    ∧ forgeBuild cfgMissingTemplate [pluginEmptyTemplates] "/p" "/p/.forge.yml"
        "base" (fun _ => none) (fun _ => none)
      ≠ .error (.templateError "Template not found: missing.j2") := by
  constructor
  · rfl
  · intro h
    rw [show forgeBuild cfgMissingTemplate [pluginEmptyTemplates] "/p"
        "/p/.forge.yml" "base" (fun _ => none) (fun _ => none)
      = .error (.attributeError
          "ForgeConfig object has no attribute environments") from rfl] at h
    simp at h

/-- C4 (amended): for a render instruction whose template is absent from
the union of the loaded plugins template listings, the template validator
reports exactly one error naming that template and validate_all returns
false; Forge.build, on a configuration with a non-empty plugins list,
fails before writing anything — but with the AttributeError from context
building (see C3), not with a TemplateError naming the template (and even
with context building fixed, the validation failure would raise
ConfigError, Build validation failed). -/
theorem C4_missing_template :
    ∀ (config : ForgeConfig) (plugins : List Plugin)
      (root cfgPath env : String) (badParent : String → Option String)
      (gt : String → Option String) (t : String),
      t ∈ config.render.map RenderConfig.template →
      t ∉ availableTemplates plugins →
      config.plugins ≠ [] →
      ((templateValidator config.render plugins).errors.count
          ("Template not found: " ++ t) = 1)
      ∧ validateAll (defaultValidators root)
          ⟨config, plugins, config.render, badParent⟩ = false
      ∧ forgeBuild config plugins root cfgPath env badParent gt
          = .error (.attributeError
              "ForgeConfig object has no attribute environments") := by
  intro config plugins root cfgPath env badParent gt t htin hnotin hpne
  have hcount : (templateValidator config.render plugins).errors.count
      ("Template not found: " ++ t) = 1 := by
    simp only [templateValidator]
    have hnoavail : ((availableTemplates plugins).contains t) = false := by
      simpa using hnotin
    have htd : t ∈ (config.render.map RenderConfig.template).dedup :=
      List.mem_dedup.mpr htin
    have htf : t ∈ (config.render.map RenderConfig.template).dedup.filter
        (fun s => !(availableTemplates plugins).contains s) :=
      List.mem_filter.mpr ⟨htd, by simpa using hnotin⟩
    have hnd : ((config.render.map RenderConfig.template).dedup.filter
        (fun s => !(availableTemplates plugins).contains s)).Nodup :=
      (List.nodup_dedup _).filter _
    rw [List.count_eq_countP, List.countP_map]
    simp only [Function.comp_def]
    have hcongr : ∀ s ∈ (config.render.map RenderConfig.template).dedup.filter
        (fun s => !(availableTemplates plugins).contains s),
        (("Template not found: " ++ s == "Template not found: " ++ t) = true)
        ↔ (s == t) = true := by
      intro s _
      simp only [beq_iff_eq]
      constructor
      · exact strAppend_cancel_left
      · intro h
        rw [h]
    rw [List.countP_congr hcongr, ← List.count_eq_countP]
    exact List.count_eq_one_of_mem hnd htf
  refine ⟨hcount, ?_, ?_⟩
  · cases hv : validateAll (defaultValidators root)
        ⟨config, plugins, config.render, badParent⟩
    · rfl
    · exfalso
      have hall := (C5_validate_all (defaultValidators root)
        ⟨config, plugins, config.render, badParent⟩).2.mp hv
      have hmem : runValidator .template
          ⟨config, plugins, config.render, badParent⟩
          ∈ validateAllResults (defaultValidators root)
            ⟨config, plugins, config.render, badParent⟩ := by
        simp [validateAllResults, defaultValidators]
      have hempty := hall _ hmem
      rw [show runValidator .template ⟨config, plugins, config.render, badParent⟩
          = templateValidator config.render plugins from rfl] at hempty
      rw [hempty] at hcount
      simp at hcount
  · have hne : config.plugins.isEmpty = false := by
      cases hp : config.plugins with
      | nil => exact absurd hp hpne
      | cons a l => rfl
    simp only [forgeBuild, hne, Bool.false_eq_true, if_false]
    rw [C3_create_default_attribute_error config plugins root cfgPath env]

/-- C4 witness: the amended theorem applied at the concrete configuration
and plugin above. -/
theorem C4_missing_template_witness :
    ((templateValidator cfgMissingTemplate.render
        [pluginEmptyTemplates]).errors.count
        ("Template not found: " ++ "missing.j2") = 1)
    ∧ validateAll (defaultValidators "/p")
        ⟨cfgMissingTemplate, [pluginEmptyTemplates],
          cfgMissingTemplate.render, fun _ => none⟩ = false
    ∧ forgeBuild cfgMissingTemplate [pluginEmptyTemplates] "/p"
        "/p/.forge.yml" "base" (fun _ => none) (fun _ => none)
        = .error (.attributeError
            "ForgeConfig object has no attribute environments") :=
  C4_missing_template cfgMissingTemplate [pluginEmptyTemplates] "/p"
    "/p/.forge.yml" "base" (fun _ => none) (fun _ => none) "missing.j2"
    (by simp [cfgMissingTemplate])
    (by simp [availableTemplates, pluginEmptyTemplates, Plugin.listTemplates,
      collectList, List.insertionSort])
    (by simp [cfgMissingTemplate])

end SolitaryForge
